import Mathlib

/-!
Shallow embedding of the webmcp-poc tool-calling engine.

The JavaScript source is embedded as follows:

* `fidelityApp.js` — the mutable `mockAccountData` store and the UI-facing
  `App` functions become an explicit `AppState` record and pure state
  transformers on it.  DOM details (scrolling, CSS classes, timers) are
  abstracted to the fields they set: the highlighted account id, the
  pre-filled transfer modal, and the selected chart period.
* `webmcpProvider.js` — the four tool executors become functions
  `... → AppState → AppState × ToolResult`.
* `main.js` — the mock WebMCP browser API: the `tools` Map becomes an
  association list with JS `Map.set`/`Map.get` semantics (`mapSet`/`mapGet`),
  `provideContext` and `invokeTool` are translated directly.  A tool executor
  that throws is modelled by `Except String`, with `invokeTool` catching the
  error at the call boundary exactly as the `try`/`catch` in the source does.
* `llmClient.js` / `agentClient.js` — the provider reply processing
  (`processOpenAIResponse`), the follow-up call (`handleFunctionResult`) and
  the orchestration (`processUserPromptWithLLM`) become pure functions
  parameterised by an oracle `OAIRequest → OAIMessage` standing for the
  remote model, and by the JS builtins `JSON.parse`, `JSON.stringify` and
  `Number.toFixed(2)`, which are external to the repository.
-/

namespace WebMCP

/-! ### JS string primitives

`String.prototype.toLowerCase` and `String.prototype.includes`, implemented
character-by-character so the kernel can evaluate them. -/

/-- JS `s.toLowerCase()`: lower-case every character. -/
def jsToLower (s : String) : String := String.mk (s.data.map Char.toLower)

/-- `leadsWith sub hay` is true when `sub` is an initial run of `hay`. -/
def leadsWith : List Char → List Char → Bool
  | [], _ => true
  | _ :: _, [] => false
  | a :: s, b :: h => a == b && leadsWith s h

/-- `subOccurs hay sub` is true when `sub` occurs contiguously in `hay`
(JS `hay.includes(sub)`; the empty string occurs in everything). -/
def subOccurs : List Char → List Char → Bool
  | hay, sub =>
    if leadsWith sub hay then true
    else
      match hay with
      | [] => false
      | _ :: t => subOccurs t sub

/-- JS `s.includes(sub)`. -/
def jsIncludes (s sub : String) : Bool := subOccurs s.data sub.data

/-! ### fidelityApp.js — account store and UI state -/

/-- One record of the `mockAccountData` object. -/
structure Account where
  id : String
  name : String
  balance : ℚ
  type : String

/-- The pre-filled transfer form (`#fromAccount`, `#toAccount`, `#amount`)
shown by `App.showTransferModal`. -/
structure TransferModal where
  fromName : String
  toName : String
  amount : ℚ

/-- The mutable state of the simulated Fidelity frontend: the
`mockAccountData` store plus the UI state the tools touch. -/
structure AppState where
  accounts : List Account
  highlighted : Option String
  modal : Option TransferModal
  chartPeriod : Option String

def brokerageAccount : Account :=
  { id := "acc_brokerage_123", name := "Brokerage Account", balance := 15430.25, type := "taxable" }

def rothAccount : Account :=
  { id := "acc_roth_456", name := "Roth IRA", balance := 89500.75, type := "retirement" }

def rolloverAccount : Account :=
  { id := "acc_401k_789", name := "401(k) Rollover", balance := 245100.40, type := "retirement" }

def cashAccount : Account :=
  { id := "acc_cash_101", name := "Cash Management", balance := 5200.00, type := "cash" }

/-- `Object.values(mockAccountData)` in insertion order. -/
def mockAccountData : List Account :=
  [brokerageAccount, rothAccount, rolloverAccount, cashAccount]

/-- The page state right after load (`App.renderAccountList`). -/
def initialAppState : AppState :=
  { accounts := mockAccountData, highlighted := none, modal := none, chartPeriod := none }

/-- `App.showTransferModal({from, to, amount})`: resolve both ids against the
account store (`mockAccountData[from]?.name || 'N/A'`) and pre-fill the
transfer form.  Only the modal changes. -/
def App.showTransferModal (st : AppState) (fromId toId : String) (amount : ℚ) : AppState :=
  let fromAccount := ((st.accounts.find? (fun a => a.id == fromId)).map Account.name).getD "N/A"
  let toAccount := ((st.accounts.find? (fun a => a.id == toId)).map Account.name).getD "N/A"
  { st with modal := some { fromName := fromAccount, toName := toAccount, amount := amount } }

/-- `App.highlightAccount`: clear any previous highlight, then highlight the
account's list item if it exists in the rendered account list. -/
def App.highlightAccount (st : AppState) (accountId : String) : AppState :=
  if st.accounts.any (fun a => a.id == accountId) then
    { st with highlighted := some accountId }
  else
    { st with highlighted := none }

/-- `App.updatePerformanceChart`: show the chart for the given period. -/
def App.updatePerformanceChart (st : AppState) (timePeriod : String) : AppState :=
  { st with chartPeriod := some timePeriod }

/-! ### webmcpProvider.js — tool results and executors -/

/-- The free-form `{success, ...}` envelope a tool executor returns.  The
fields other than `success` are those any of the four tools actually sets;
an absent JS property is `none`. -/
structure ToolResult where
  success : Bool
  message : Option String := none
  accountName : Option String := none
  balance : Option ℚ := none
  accounts : Option (List Account) := none

/-- `getAccountList.execute()`. -/
def executeGetAccountList (st : AppState) : AppState × ToolResult :=
  (st, { success := true, accounts := some st.accounts })

/-- `getAccountBalance.execute({accountIdentifier})`: case-insensitive
substring search over account names; highlight and report the first hit. -/
def executeGetAccountBalance (accountIdentifier : String) (st : AppState) :
    AppState × ToolResult :=
  let lowerIdentifier := jsToLower accountIdentifier
  match st.accounts.find? (fun acc => jsIncludes (jsToLower acc.name) lowerIdentifier) with
  | some account =>
      (App.highlightAccount st account.id,
       { success := true, accountName := some account.name, balance := some account.balance })
  | none =>
      (st, { success := false,
             message := some ("Account '" ++ accountIdentifier ++ "' not found.") })

/-- `getPortfolioPerformance.execute({timePeriod})`. -/
def executeGetPortfolioPerformance (timePeriod : String) (st : AppState) :
    AppState × ToolResult :=
  (App.updatePerformanceChart st timePeriod,
   { success := true,
     message := some ("Portfolio performance chart is now showing data for '"
       ++ timePeriod ++ "'.") })

/-- `initiateFundTransfer.execute({fromAccount, toAccount, amount})`: resolve
both sides by fuzzy match; on success only stage the transfer by pre-filling
the modal, on failure report which side failed. -/
def executeInitiateFundTransfer (fromAccount toAccount : String) (amount : ℚ)
    (st : AppState) : AppState × ToolResult :=
  let lowerFromAccount := jsToLower fromAccount
  let lowerToAccount := jsToLower toAccount
  let fromAcc := st.accounts.find? (fun acc => jsIncludes (jsToLower acc.name) lowerFromAccount)
  let toAcc := st.accounts.find? (fun acc => jsIncludes (jsToLower acc.name) lowerToAccount)
  match fromAcc, toAcc with
  | some f, some t =>
      (App.showTransferModal st f.id t.id amount,
       { success := true,
         message := some "I've prepared the transfer for you. Please review and click 'Submit' to complete it." })
  | _, _ =>
      (st, { success := false,
             message := some ("Account(s) not found. From: " ++ fromAccount ++ " "
               ++ (if fromAcc.isSome then "✓" else "✗") ++ ", To: " ++ toAccount ++ " "
               ++ (if toAcc.isSome then "✓" else "✗")) })

/-! ### main.js — mock WebMCP browser API -/

/-- The argument object an executor is invoked with, as parsed from the
model's JSON.  One variant per argument shape the four tools destructure. -/
inductive ToolArgs where
  | emptyArgs
  | balanceArgs (accountIdentifier : String)
  | perfArgs (timePeriod : String)
  | transferArgs (fromAccount toAccount : String) (amount : ℚ)

/-- A registered tool: name, description and an executor that may throw
(`Except.error` is a raised JS exception).  The `inputSchema` is carried
through to the provider verbatim and never inspected by the engine, so it is
not modelled. -/
structure MTool where
  name : String
  description : String
  execute : ToolArgs → AppState → Except String (AppState × ToolResult)

/-- JS `Map.set`: update the entry in place when the key is present (keys in
a `Map` are unique), otherwise append in insertion order. -/
def mapSet (m : List (String × MTool)) (k : String) (v : MTool) : List (String × MTool) :=
  match m with
  | [] => [(k, v)]
  | p :: t => if p.1 = k then (k, v) :: t else p :: mapSet t k v

/-- JS `Map.get`. -/
def mapGet (m : List (String × MTool)) (k : String) : Option MTool :=
  (m.find? (fun p => p.1 == k)).map Prod.snd

/-- `mockAgentAPI.provideContext`: `this.tools.clear()` discards the previous
map, then every tool of the batch is `set` in order. -/
def provideContext : List (String × MTool) → List MTool → List (String × MTool) :=
  fun _ batch => batch.foldl (fun m t => mapSet m t.name t) []

/-- What one `mockAgentAPI.invokeTool` call did: the resulting app state, the
`ToolResult` handed back to the caller, and the names of the executors that
actually ran. -/
structure InvokeOutcome where
  newState : AppState
  result : ToolResult
  executed : List String

/-- `mockAgentAPI.invokeTool`: look the tool up; execute it inside
`try`/`catch`, converting a raised exception to a `{success:false}` result;
an unknown name yields a `{success:false}` result without executing
anything. -/
def invokeTool (registry : List (String × MTool)) (toolName : String)
    (params : ToolArgs) (st : AppState) : InvokeOutcome :=
  match mapGet registry toolName with
  | some tool =>
      match tool.execute params st with
      | .ok (st2, res) => { newState := st2, result := res, executed := [toolName] }
      | .error _ =>
          { newState := st,
            result := { success := false, message := some "An internal error occurred." },
            executed := [toolName] }
  | none =>
      { newState := st,
        result := { success := false, message := some "Unknown action." },
        executed := [] }

/-! ### webmcpProvider.js — the four registered tools

An executor destructures one specific argument shape; handing it any other
shape makes the JS body call `toLowerCase` (or `toFixed`) on `undefined`,
which throws a `TypeError` — modelled by `Except.error`. -/

def getAccountListTool : MTool :=
  { name := "getAccountList",
    description := "Retrieves a list of all the user's available accounts, including their names and unique IDs.",
    execute := fun _ st => .ok (executeGetAccountList st) }

def getAccountBalanceTool : MTool :=
  { name := "getAccountBalance",
    description := "Gets the current total market value for a specific account identified by its name or type (e.g., 'Roth IRA', 'Brokerage').",
    execute := fun args st =>
      match args with
      | .balanceArgs accountIdentifier => .ok (executeGetAccountBalance accountIdentifier st)
      | _ => .error "TypeError" }

def getPortfolioPerformanceTool : MTool :=
  { name := "getPortfolioPerformance",
    description := "Retrieves the historical investment performance data for the user's total portfolio over a given time period.",
    execute := fun args st =>
      match args with
      | .perfArgs timePeriod => .ok (executeGetPortfolioPerformance timePeriod st)
      | _ => .error "TypeError" }

def initiateFundTransferTool : MTool :=
  { name := "initiateFundTransfer",
    description := "Pre-fills the fund transfer form to move a specific amount of money between two of the user's Fidelity accounts. This action requires final user confirmation.",
    execute := fun args st =>
      match args with
      | .transferArgs fromAccount toAccount amount =>
          .ok (executeInitiateFundTransfer fromAccount toAccount amount st)
      | _ => .error "TypeError" }

/-- The batch `registerFidelityTools` passes to `provideContext`. -/
def fidelityTools : List MTool :=
  [getAccountListTool, getAccountBalanceTool, getPortfolioPerformanceTool,
   initiateFundTransferTool]

/-! ### llmClient.js — provider wire format and reply processing -/

/-- One entry of `choices[0].message.tool_calls`: `id`, `function.name`, and
`function.arguments` (an untrusted JSON string). -/
structure OAIToolCall where
  id : String
  functionName : String
  argumentsRaw : String

/-- `choices[0].message`: text content and structured tool calls.  A missing
`tool_calls` property is the empty list, a missing `content` is `none`. -/
structure OAIMessage where
  content : Option String
  toolCalls : List OAIToolCall

/-- The normalized outcome of one provider reply, as built by
`processOpenAIResponse` (`type: 'function_call' | 'text' | 'error'`). -/
inductive LLMResponse where
  | functionCall (functionName : String) (arguments : ToolArgs) (toolCallId : String)
  | text (message : Option String)
  | error (message : String)

/-- A conversation turn pushed onto `conversationHistory`. -/
inductive Turn where
  | user (content : String)
  | assistant (message : OAIMessage)
  | toolTurn (toolCallId : String) (content : String)

/-- One element of the request's `tools` array
(`{type:"function", function:{name, description, parameters}}`); the
`parameters` schema is passed through verbatim and not modelled. -/
structure ToolDecl where
  name : String
  description : String

/-- `LLMClient.formatToolsForOpenAI`: declare every registered tool. -/
def formatToolsForOpenAI (tools : List (String × MTool)) : List ToolDecl :=
  tools.map (fun p => { name := p.2.name, description := p.2.description })

/-- The outgoing `chat/completions` request body: system instruction,
replayed history, and the `tools` array — which is `undefined` (`none`) when
no tools were passed (`tools.length > 0 ? tools : undefined`). -/
structure OAIRequest where
  systemContent : String
  messages : List Turn
  tools : Option (List ToolDecl)

/-- The fixed system instruction with the declared tool names interpolated
(whitespace normalized; the exact wording is outside every claim). -/
def systemPrompt (tools : List ToolDecl) : String :=
  "You are a helpful financial assistant for Fidelity Investments. You can help users with account inquiries, portfolio performance, and fund transfers. Available tools: "
    ++ String.intercalate ", " (tools.map ToolDecl.name)
    ++ " Always be helpful and professional. When users request transfers, explain that you'll prepare the form but they need to confirm the transaction for security."

/-- `LLMClient.processOpenAIResponse`: if the reply carries one or more
structured tool calls, act on the first only — parse its raw arguments,
collapsing a JSON parse failure to an error decision; otherwise the reply is
plain text.  `parseJson` stands for the JS builtin `JSON.parse` (plus the
reading of the parsed object into the executor's argument shape). -/
def processOpenAIResponse (parseJson : String → Option ToolArgs) (message : OAIMessage) :
    LLMResponse :=
  match message.toolCalls with
  | toolCall :: _ =>
      match parseJson toolCall.argumentsRaw with
      | some functionArgs => .functionCall toolCall.functionName functionArgs toolCall.id
      | none => .error "I had trouble understanding the parameters for that request."
  | [] => .text message.content

/-- What one `LLMClient.callOpenAI` round did: the request that went out, the
history with the assistant reply pushed, and the normalized decision. -/
structure GatewayCall where
  request : OAIRequest
  history : List Turn
  response : LLMResponse

/-- `LLMClient.callOpenAI`: format the tools, build the request from the
system instruction and the replayed history, consult the provider (the
`oracle`), push the assistant message, and normalize the reply. -/
def callOpenAI (oracle : OAIRequest → OAIMessage) (parseJson : String → Option ToolArgs)
    (availableTools : List (String × MTool)) (history : List Turn) : GatewayCall :=
  let tools := formatToolsForOpenAI availableTools
  let req : OAIRequest :=
    { systemContent := systemPrompt tools,
      messages := history,
      tools := if tools.length > 0 then some tools else none }
  let msg := oracle req
  { request := req,
    history := history ++ [Turn.assistant msg],
    response := processOpenAIResponse parseJson msg }

/-- `LLMClient.handleFunctionResult`: push a `role:"tool"` turn carrying
`JSON.stringify(functionResult)`, then request the follow-up decision via
`callOpenAI('', new Map(), ...)` — with an empty tool map.  `stringifyResult`
stands for the JS builtin `JSON.stringify`. -/
def handleFunctionResult (oracle : OAIRequest → OAIMessage)
    (parseJson : String → Option ToolArgs) (stringifyResult : ToolResult → String)
    (history : List Turn) (toolCallId : String) (functionResult : ToolResult) :
    GatewayCall :=
  callOpenAI oracle parseJson []
    (history ++ [Turn.toolTurn toolCallId (stringifyResult functionResult)])

/-! ### agentClient.js — orchestration -/

/-- `AgentClient.formatFunctionResult` (legacy path, only reached when the
reply carried no `toolCallId`): format a tool result as a user-facing
message.  `toFixed2` stands for the JS builtin `Number.prototype.toFixed(2)`;
the `getD` defaults stand in for JS `undefined` and are only reachable on
results the four tools never produce. -/
def formatFunctionResult (toFixed2 : ℚ → String) (functionName : String)
    (result : ToolResult) : Option String :=
  let fallback : Option String :=
    if result.success then result.message
    else some ("Error: " ++ result.message.getD "undefined")
  match functionName with
  | "getAccountBalance" =>
      if result.success then
        some ("The balance for " ++ result.accountName.getD "undefined" ++ " is $"
          ++ toFixed2 (result.balance.getD 0) ++ ".")
      else fallback
  | "getAccountList" =>
      if result.success then
        some ("Here are your accounts: "
          ++ String.intercalate ", " ((result.accounts.getD []).map Account.name) ++ ".")
      else fallback
  | "initiateFundTransfer" => result.message
  | "getPortfolioPerformance" => result.message
  | _ => fallback

/-- The object `processUserPromptWithLLM` returns to `handleSend`: either a
`{message}` object, or — after a follow-up round — the follow-up response
returned verbatim, whatever its type. -/
inductive AgentResult where
  | messageOnly (message : Option String)
  | raw (response : LLMResponse)

/-- Everything one `AgentClient.processUserPromptWithLLM` run did: final app
state, final conversation history, the returned response object, the
executors that ran, and the provider requests that went out, in order. -/
structure OrchOutcome where
  finalState : AppState
  history : List Turn
  response : AgentResult
  executed : List String
  requests : List OAIRequest

/-- `AgentClient.processUserPromptWithLLM`: push the user turn and consult
the model with the registered tools.  On a `function_call` decision invoke
the tool; when the reply carried a truthy `toolCallId`, feed the result back
via `handleFunctionResult` and return the follow-up response verbatim,
otherwise format the result locally.  On a `text` or `error` decision return
its message.  (The user-turn push lives in `LLMClient.generateResponse` in
the source; it is inlined here.) -/
def processUserPromptWithLLM (oracle : OAIRequest → OAIMessage)
    (parseJson : String → Option ToolArgs) (stringifyResult : ToolResult → String)
    (toFixed2 : ℚ → String) (registry : List (String × MTool)) (st : AppState)
    (history : List Turn) (prompt : String) : OrchOutcome :=
  let history1 := history ++ [Turn.user prompt]
  let call1 := callOpenAI oracle parseJson registry history1
  match call1.response with
  | .functionCall functionName functionArgs toolCallId =>
      let inv := invokeTool registry functionName functionArgs st
      if toolCallId == "" then
        { finalState := inv.newState,
          history := call1.history,
          response := .messageOnly (formatFunctionResult toFixed2 functionName inv.result),
          executed := inv.executed,
          requests := [call1.request] }
      else
        let call2 := handleFunctionResult oracle parseJson stringifyResult
          call1.history toolCallId inv.result
        { finalState := inv.newState,
          history := call2.history,
          response := .raw call2.response,
          executed := inv.executed,
          requests := [call1.request, call2.request] }
  | .text m =>
      { finalState := st, history := call1.history, response := .messageOnly m,
        executed := [], requests := [call1.request] }
  | .error m =>
      { finalState := st, history := call1.history, response := .messageOnly (some m),
        executed := [], requests := [call1.request] }

/-! ### Concrete stubs used to instantiate the claims -/

/-- A provider reply that always requests a tool call (arguments `"\x7b\x7d"`
is the two-character JSON text of an empty object). -/
def stubMessage : OAIMessage :=
  { content := none,
    toolCalls := [{ id := "call_1", functionName := "getAccountList", argumentsRaw := "\x7b\x7d" }] }

/-- A model stub that answers every request with `stubMessage`. -/
def stubOracle : OAIRequest → OAIMessage := fun _ => stubMessage

/-- A `JSON.parse` stand-in that accepts everything as an empty argument
object. -/
def stubParse : String → Option ToolArgs := fun _ => some ToolArgs.emptyArgs

/-- A `JSON.stringify` stand-in. -/
def stubStringify : ToolResult → String := fun _ => "null"

/-- A `Number.toFixed(2)` stand-in. -/
def stubToFixed : ℚ → String := fun _ => "0.00"

/-- A provider reply carrying two structured tool calls. -/
def twoCallMessage : OAIMessage :=
  { content := some "unused content",
    toolCalls :=
      [{ id := "call_A", functionName := "getAccountBalance", argumentsRaw := "argsA" },
       { id := "call_B", functionName := "getPortfolioPerformance", argumentsRaw := "argsB" }] }

/-- First of two same-named tools handed to one registration batch. -/
def dupToolA : MTool :=
  { name := "dupTool", description := "first registration",
    execute := fun _ st => .ok (st, { success := true, message := some "A" }) }

/-- Second of two same-named tools handed to one registration batch. -/
def dupToolB : MTool :=
  { name := "dupTool", description := "second registration",
    execute := fun _ st => .ok (st, { success := true, message := some "B" }) }

/-! ### Helper lemmas -/

/-- `initiateFundTransfer`'s executor never touches the account store: every
branch either leaves the state alone or only sets the modal. -/
theorem initiateFundTransfer_accounts_eq (fromAccount toAccount : String) (amount : ℚ)
    (st : AppState) :
    (executeInitiateFundTransfer fromAccount toAccount amount st).1.accounts = st.accounts := by
  simp only [executeInitiateFundTransfer]
  cases st.accounts.find? (fun acc => jsIncludes (jsToLower acc.name) (jsToLower fromAccount)) <;>
    cases st.accounts.find? (fun acc => jsIncludes (jsToLower acc.name) (jsToLower toAccount)) <;>
      simp [App.showTransferModal]

/-! ### Claims -/

/-- C1: the `initiateFundTransfer` executor only resolves the two account
names and stages the transfer via the modal; for every invocation, and for
every pair of invocations with identical arguments run back to back, every
account (in particular every balance) in the `mockAccountData` store is
unchanged when the executor returns.  Commits happen, if at all, only through
the separate user-initiated confirm action outside the model loop. -/
theorem initiateFundTransfer_staging_only (fromAccount toAccount : String) (amount : ℚ)
    (st : AppState) :
    (executeInitiateFundTransfer fromAccount toAccount amount st).1.accounts = st.accounts
    ∧ (executeInitiateFundTransfer fromAccount toAccount amount
        (executeInitiateFundTransfer fromAccount toAccount amount st).1).1.accounts
      = st.accounts := by
  constructor
  · exact initiateFundTransfer_accounts_eq fromAccount toAccount amount st
  · rw [initiateFundTransfer_accounts_eq, initiateFundTransfer_accounts_eq]

/-- C3: invoking a tool name that is not in the active registry executes no
executor and hands back a `{success:false}` result — a fed-back failure,
never a crash and never a silent no-op. -/
theorem invokeTool_unregistered (registry : List (String × MTool)) (toolName : String)
    (params : ToolArgs) (st : AppState) (h : mapGet registry toolName = none) :
    invokeTool registry toolName params st
      = { newState := st,
          result := { success := false, message := some "Unknown action." },
          executed := [] } := by
  simp only [invokeTool, h]

/-- C3 witness: `browseTheWeb` is not among the registered Fidelity tools. -/
theorem invokeTool_unregistered_witness :
    invokeTool (provideContext [] fidelityTools) "browseTheWeb" ToolArgs.emptyArgs
        initialAppState
      = { newState := initialAppState,
          result := { success := false, message := some "Unknown action." },
          executed := [] } :=
  invokeTool_unregistered (provideContext [] fidelityTools) "browseTheWeb"
    ToolArgs.emptyArgs initialAppState rfl

/-- C4: when a registered tool's executor raises instead of returning a
result, `invokeTool` catches the exception at the call boundary and returns a
`{success:false}` result; the exception never propagates to the
orchestrator. -/
theorem invokeTool_catches_executor_exception (registry : List (String × MTool))
    (toolName : String) (tool : MTool) (params : ToolArgs) (st : AppState) (e : String)
    (hget : mapGet registry toolName = some tool)
    (hraise : tool.execute params st = .error e) :
    invokeTool registry toolName params st
      = { newState := st,
          result := { success := false, message := some "An internal error occurred." },
          executed := [toolName] } := by
  simp only [invokeTool, hget, hraise]

/-- C4 witness: handing `getAccountBalance` an argument object without an
`accountIdentifier` makes its executor throw a `TypeError`, which is caught
and converted. -/
theorem invokeTool_catches_executor_exception_witness :
    invokeTool (provideContext [] fidelityTools) "getAccountBalance" ToolArgs.emptyArgs
        initialAppState
      = { newState := initialAppState,
          result := { success := false, message := some "An internal error occurred." },
          executed := ["getAccountBalance"] } :=
  invokeTool_catches_executor_exception (provideContext [] fidelityTools) "getAccountBalance"
    getAccountBalanceTool ToolArgs.emptyArgs initialAppState "TypeError" rfl rfl

/-- JS `Map.set` then `Map.get`: reading the written key gives the written
value, reading any other key is unaffected. -/
theorem mapGet_mapSet (m : List (String × MTool)) (k : String) (v : MTool) (q : String) :
    mapGet (mapSet m k v) q = if q = k then some v else mapGet m q := by
  induction m with
  | nil =>
      by_cases hq : q = k
      · subst hq; simp [mapSet, mapGet, List.find?]
      · simp [mapSet, mapGet, List.find?, beq_eq_false_iff_ne.mpr (Ne.symm hq), hq]
  | cons p t ih =>
      by_cases hpk : p.1 = k
      · subst hpk
        by_cases hq : q = p.1
        · subst hq; simp [mapSet, mapGet, List.find?]
        · simp [mapSet, mapGet, List.find?, hq, beq_eq_false_iff_ne.mpr (Ne.symm hq)]
      · simp only [mapSet, if_neg hpk]
        by_cases hpq : p.1 = q
        · have hqk : ¬q = k := fun h => hpk (hpq.trans h)
          simp [mapGet, List.find?, hpq, hqk]
        · simp only [mapGet, List.find?, beq_eq_false_iff_ne.mpr hpq] at ih ⊢
          exact ih

/-- Folding a batch over `mapSet` leaves every key that no batch element
names untouched. -/
theorem mapGet_foldl_of_not_mem (batch : List MTool) (m0 : List (String × MTool))
    (nm : String) (h : ∀ t ∈ batch, t.name ≠ nm) :
    mapGet (batch.foldl (fun m t => mapSet m t.name t) m0) nm = mapGet m0 nm := by
  induction batch generalizing m0 with
  | nil => rfl
  | cons a bs ih =>
      simp only [List.foldl]
      rw [ih (mapSet m0 a.name a) (fun t ht => h t (List.mem_cons_of_mem a ht)),
        mapGet_mapSet, if_neg (fun hh => h a (List.mem_cons_self a bs) hh.symm)]

/-- Folding a batch with pairwise-distinct names over `mapSet` makes every
batch element retrievable under its own name. -/
theorem mapGet_foldl_unique (batch : List MTool) (m0 : List (String × MTool))
    (hnodup : (batch.map MTool.name).Nodup) :
    ∀ t ∈ batch, mapGet (batch.foldl (fun m t => mapSet m t.name t) m0) t.name = some t := by
  induction batch generalizing m0 with
  | nil => intro t ht; cases ht
  | cons a bs ih =>
      have hcons : a.name ∉ bs.map MTool.name ∧ (bs.map MTool.name).Nodup := by
        rw [List.map_cons, List.nodup_cons] at hnodup
        exact hnodup
      intro t ht
      rcases List.mem_cons.mp ht with rfl | hmem
      · simp only [List.foldl]
        rw [mapGet_foldl_of_not_mem bs (mapSet m0 t.name t) t.name
            (fun u hu heq => hcons.1 (heq ▸ List.mem_map_of_mem MTool.name hu)),
          mapGet_mapSet, if_pos rfl]
      · simp only [List.foldl]
        exact ih (mapSet m0 a.name a) hcons.2 t hmem

/-- C5: after `provideContext` with a batch of uniquely named tools, looking
up each batch name yields exactly the tool registered under it, and every
name not in the batch — in particular every name only an earlier batch
registered — is unresolvable: registration replaces the whole active set. -/
theorem provideContext_replaces_registry (old : List (String × MTool)) (batch : List MTool)
    (hnodup : (batch.map MTool.name).Nodup) :
    (∀ t ∈ batch, mapGet (provideContext old batch) t.name = some t)
    ∧ ∀ nm : String, (∀ t ∈ batch, t.name ≠ nm) → mapGet (provideContext old batch) nm = none := by
  constructor
  · exact fun t ht => mapGet_foldl_unique batch [] hnodup t ht
  · intro nm h
    exact (mapGet_foldl_of_not_mem batch [] nm h).trans rfl

/-- C5 witness: registering the four Fidelity tools resolves
`getAccountBalance`; re-registering a batch holding only `getAccountList`
makes `getAccountBalance` unresolvable. -/
theorem provideContext_replaces_registry_witness :
    (fidelityTools.map MTool.name).Nodup
    ∧ mapGet (provideContext [] fidelityTools) "getAccountBalance" = some getAccountBalanceTool
    ∧ mapGet (provideContext (provideContext [] fidelityTools) [getAccountListTool])
        "getAccountBalance" = none := by
  refine ⟨by decide, ?_, ?_⟩
  · exact (provideContext_replaces_registry [] fidelityTools (by decide)).1
      getAccountBalanceTool (by simp [fidelityTools])
  · exact (provideContext_replaces_registry (provideContext [] fidelityTools)
      [getAccountListTool] (by decide)).2 "getAccountBalance" (by decide)

/-- C9 counterexample: registering a batch with two tools both named
`dupTool` reports nothing to the caller — `provideContext` has no error
outcome at all — and silently leaves only the later tool in the registry:
the claimed configuration-error report does not exist in the code. -/
theorem provideContext_duplicate_counterexample :
    mapGet (provideContext [] [dupToolA, dupToolB]) "dupTool" = some dupToolB
    ∧ dupToolA ≠ dupToolB
    ∧ (provideContext [] [dupToolA, dupToolB]).length = 1 := by
  refine ⟨rfl, ?_, rfl⟩
  intro h
  have hd := congrArg MTool.description h
  simp [dupToolA, dupToolB] at hd

/-- C9 (amended): registering two tools with the same name in one batch is
silently accepted; the later tool overwrites the earlier one (last write
wins), leaving a single entry under that name and reporting no error. -/
theorem provideContext_duplicate_last_wins (old : List (String × MTool)) (t1 t2 : MTool)
    (h : t1.name = t2.name) :
    mapGet (provideContext old [t1, t2]) t1.name = some t2
    ∧ (provideContext old [t1, t2]).length = 1 := by
  constructor
  · simp only [provideContext, List.foldl]
    rw [mapGet_mapSet, if_pos h]
  · simp [provideContext, mapSet, h]

/-- C9 witness: the amended claim at a concrete registration batch. -/
theorem provideContext_duplicate_last_wins_witness :
    mapGet (provideContext [("seed", getAccountListTool)] [dupToolA, dupToolB]) "dupTool"
      = some dupToolB
    ∧ (provideContext [("seed", getAccountListTool)] [dupToolA, dupToolB]).length = 1 :=
  provideContext_duplicate_last_wins [("seed", getAccountListTool)] dupToolA dupToolB rfl

/-- `find?` over a decomposed list: when nothing in the front part matches
and `a` matches, the first match is `a`. -/
theorem find?_first_match {α : Type} (p : α → Bool) (l1 l2 : List α) (a : α)
    (h1 : ∀ b ∈ l1, p b = false) (h2 : p a = true) :
    (l1 ++ a :: l2).find? p = some a := by
  induction l1 with
  | nil => simp [List.find?_cons_of_pos, h2]
  | cons x xs ih =>
      have hx : p x = false := h1 x (List.mem_cons_self x xs)
      rw [List.cons_append, List.find?_cons_of_neg _ (by simp [hx])]
      exact ih (fun b hb => h1 b (List.mem_cons_of_mem x hb))

/-- C6: every provider reply is turned into exactly one decision with this
precedence — one or more structured tool calls: a `function_call` decision
built from the first call (the rest are dropped), unless the first call's
serialized arguments fail to parse, in which case an `error` decision, never
a call with a garbage payload; no tool calls: a `text` decision carrying the
message content. -/
theorem processOpenAIResponse_decision (parseJson : String → Option ToolArgs)
    (msg : OAIMessage) :
    (∀ c rest a, msg.toolCalls = c :: rest → parseJson c.argumentsRaw = some a →
        processOpenAIResponse parseJson msg = .functionCall c.functionName a c.id)
    ∧ (∀ c rest, msg.toolCalls = c :: rest → parseJson c.argumentsRaw = none →
        processOpenAIResponse parseJson msg
          = .error "I had trouble understanding the parameters for that request.")
    ∧ (msg.toolCalls = [] → processOpenAIResponse parseJson msg = .text msg.content) := by
  refine ⟨?_, ?_, ?_⟩
  · intro c rest a hcalls hparse
    simp [processOpenAIResponse, hcalls, hparse]
  · intro c rest hcalls hparse
    simp [processOpenAIResponse, hcalls, hparse]
  · intro hcalls
    simp [processOpenAIResponse, hcalls]

/-- C6 witness: a reply with two tool calls becomes the decision for the
first call only. -/
theorem processOpenAIResponse_decision_witness :
    processOpenAIResponse stubParse twoCallMessage
      = LLMResponse.functionCall "getAccountBalance" ToolArgs.emptyArgs "call_A" :=
  (processOpenAIResponse_decision stubParse twoCallMessage).1
    { id := "call_A", functionName := "getAccountBalance", argumentsRaw := "argsA" }
    [{ id := "call_B", functionName := "getPortfolioPerformance", argumentsRaw := "argsB" }]
    ToolArgs.emptyArgs rfl rfl

/-- C7: when the lowercased identifier occurs in some account name
(case-insensitively), `getAccountBalance` returns success with the name and
balance of the first such account in table order; when it matches no account
name, it returns failure with a not-found message. -/
theorem getAccountBalance_first_fuzzy_match (accountIdentifier : String) (st : AppState)
    (hst : st.accounts = mockAccountData) :
    (∀ l1 acc l2, mockAccountData = l1 ++ acc :: l2 →
        (∀ b ∈ l1, jsIncludes (jsToLower b.name) (jsToLower accountIdentifier) = false) →
        jsIncludes (jsToLower acc.name) (jsToLower accountIdentifier) = true →
        (executeGetAccountBalance accountIdentifier st).2
          = { success := true, accountName := some acc.name, balance := some acc.balance })
    ∧ ((∀ b ∈ mockAccountData,
          jsIncludes (jsToLower b.name) (jsToLower accountIdentifier) = false) →
        (executeGetAccountBalance accountIdentifier st).2
          = { success := false,
              message := some ("Account '" ++ accountIdentifier ++ "' not found.") }) := by
  constructor
  · intro l1 acc l2 hdecomp h1 h2
    simp only [executeGetAccountBalance, hst, hdecomp]
    rw [find?_first_match _ l1 l2 acc h1 h2]
  · intro hall
    simp only [executeGetAccountBalance, hst]
    rw [List.find?_eq_none.mpr (fun b hb => by simp [hall b hb])]

/-- C7 witness: `"Roth IRA"` resolves to the Roth IRA account with balance
89500.75 (first and only fuzzy match), and an identifier matching nothing
yields the not-found failure. -/
theorem getAccountBalance_first_fuzzy_match_witness :
    (executeGetAccountBalance "Roth IRA" initialAppState).2
      = { success := true, accountName := some "Roth IRA", balance := some 89500.75 }
    ∧ (executeGetAccountBalance "Aardvark Fund" initialAppState).2
      = { success := false, message := some "Account 'Aardvark Fund' not found." } := by
  constructor
  · exact (getAccountBalance_first_fuzzy_match "Roth IRA" initialAppState rfl).1
      [brokerageAccount] rothAccount [rolloverAccount, cashAccount] rfl
      (by decide) (by decide)
  · exact (getAccountBalance_first_fuzzy_match "Aardvark Fund" initialAppState rfl).2
      (by decide)

/-- C8 counterexample: when the source side fails the fuzzy match, the
result message is not the exact string `"Account(s) not found."` the claim
states — the code appends per-side detail to it. -/
theorem initiateFundTransfer_message_counterexample :
    (executeInitiateFundTransfer "Money Market" "Roth IRA" 250 initialAppState).2.success
      = false
    ∧ (executeInitiateFundTransfer "Money Market" "Roth IRA" 250 initialAppState).2.message
        = some "Account(s) not found. From: Money Market ✗, To: Roth IRA ✓"
    ∧ ("Account(s) not found. From: Money Market ✗, To: Roth IRA ✓" : String)
        ≠ "Account(s) not found." := by
  refine ⟨rfl, by decide, by decide⟩

/-- C8 (amended): whenever the fuzzy match fails for the source account, the
destination account, or both, `initiateFundTransfer` returns failure with a
message beginning `"Account(s) not found."` (followed by per-side detail),
and the app state is untouched — in particular `App.showTransferModal` is
not invoked. -/
theorem initiateFundTransfer_not_found (fromAccount toAccount : String) (amount : ℚ)
    (st : AppState)
    (h : st.accounts.find? (fun acc => jsIncludes (jsToLower acc.name) (jsToLower fromAccount))
          = none
       ∨ st.accounts.find? (fun acc => jsIncludes (jsToLower acc.name) (jsToLower toAccount))
          = none) :
    (executeInitiateFundTransfer fromAccount toAccount amount st).1 = st
    ∧ (executeInitiateFundTransfer fromAccount toAccount amount st).2.success = false
    ∧ ∃ rest, (executeInitiateFundTransfer fromAccount toAccount amount st).2.message
        = some ("Account(s) not found." ++ rest) := by
  have hsplit : ("Account(s) not found. From: " : String)
      = "Account(s) not found." ++ " From: " := by decide
  simp only [executeInitiateFundTransfer]
  generalize hf : st.accounts.find?
      (fun acc => jsIncludes (jsToLower acc.name) (jsToLower fromAccount)) = oa
  generalize ht : st.accounts.find?
      (fun acc => jsIncludes (jsToLower acc.name) (jsToLower toAccount)) = ob
  rcases oa with _ | f <;> rcases ob with _ | t
  · exact ⟨rfl, rfl, " From: " ++ fromAccount ++ " " ++ "✗" ++ ", To: " ++ toAccount
      ++ " " ++ "✗", by rw [hsplit]; simp only [String.append_assoc, Option.isSome_none,
        Option.isSome_some, Bool.false_eq_true, eq_self_iff_true, if_true, if_false]⟩
  · exact ⟨rfl, rfl, " From: " ++ fromAccount ++ " " ++ "✗" ++ ", To: " ++ toAccount
      ++ " " ++ "✓", by rw [hsplit]; simp only [String.append_assoc, Option.isSome_none,
        Option.isSome_some, Bool.false_eq_true, eq_self_iff_true, if_true, if_false]⟩
  · exact ⟨rfl, rfl, " From: " ++ fromAccount ++ " " ++ "✓" ++ ", To: " ++ toAccount
      ++ " " ++ "✗", by rw [hsplit]; simp only [String.append_assoc, Option.isSome_none,
        Option.isSome_some, Bool.false_eq_true, eq_self_iff_true, if_true, if_false]⟩
  · rcases h with h | h
    · rw [h] at hf; cases hf
    · rw [h] at ht; cases ht

/-- C8 witness: the amended claim at a source identifier matching no
account. -/
theorem initiateFundTransfer_not_found_witness :
    (executeInitiateFundTransfer "Money Market" "Roth IRA" 250 initialAppState).1
      = initialAppState
    ∧ (executeInitiateFundTransfer "Money Market" "Roth IRA" 250 initialAppState).2.success
        = false
    ∧ ∃ rest,
        (executeInitiateFundTransfer "Money Market" "Roth IRA" 250 initialAppState).2.message
          = some ("Account(s) not found." ++ rest) :=
  initiateFundTransfer_not_found "Money Market" "Roth IRA" 250 initialAppState (Or.inl rfl)

/-- One `invokeTool` call runs at most one executor. -/
theorem invokeTool_executed_le_one (registry : List (String × MTool)) (toolName : String)
    (params : ToolArgs) (st : AppState) :
    (invokeTool registry toolName params st).executed.length ≤ 1 := by
  cases hm : mapGet registry toolName with
  | none =>
      simp only [invokeTool, hm]
      exact Nat.zero_le 1
  | some tool =>
      cases he : tool.execute params st with
      | error e =>
          simp only [invokeTool, hm, he]
          exact Nat.le_refl 1
      | ok p =>
          rcases p with ⟨st2, res⟩
          simp only [invokeTool, hm, he]
          exact Nat.le_refl 1

/-- Against a provider that always answers with structured tool calls whose
arguments parse and whose ids are nonempty, `callOpenAI` always normalizes
to a `function_call` decision with a nonempty call id. -/
theorem callOpenAI_always_functionCall (oracle : OAIRequest → OAIMessage)
    (parseJson : String → Option ToolArgs)
    (hOracle : ∀ req, (oracle req).toolCalls ≠ [])
    (hParse : ∀ s, (parseJson s).isSome)
    (hIds : ∀ req, ∀ c ∈ (oracle req).toolCalls, c.id ≠ "")
    (tools : List (String × MTool)) (history : List Turn) :
    ∃ f a c, (callOpenAI oracle parseJson tools history).response
        = LLMResponse.functionCall f a c ∧ c ≠ "" := by
  have hresp : (callOpenAI oracle parseJson tools history).response
      = processOpenAIResponse parseJson
          (oracle (callOpenAI oracle parseJson tools history).request) := rfl
  cases hcalls : (oracle (callOpenAI oracle parseJson tools history).request).toolCalls with
  | nil => exact absurd hcalls (hOracle (callOpenAI oracle parseJson tools history).request)
  | cons c rest =>
      obtain ⟨a, ha⟩ := Option.isSome_iff_exists.mp
        (hParse c.argumentsRaw)
      refine ⟨c.functionName, a, c.id, ?_, hIds _ c (hcalls ▸ List.mem_cons_self c rest)⟩
      rw [hresp]
      simp [processOpenAIResponse, hcalls, ha]

/-- C2 counterexample: with a model stub that always returns a tool-call
decision (`stubOracle`), processing one user submission does not reach any
`Errored` outcome — it terminates after a single tool execution and two
model requests, returning the follow-up tool-call decision verbatim as the
final response.  No round-trip cap and no `Errored` transition exist in the
code. -/
theorem orchestrator_no_errored_counterexample :
    (processUserPromptWithLLM stubOracle stubParse stubStringify stubToFixed
        (provideContext [] fidelityTools) initialAppState [] "Transfer all my money").response
      = AgentResult.raw (LLMResponse.functionCall "getAccountList" ToolArgs.emptyArgs "call_1")
    ∧ (processUserPromptWithLLM stubOracle stubParse stubStringify stubToFixed
        (provideContext [] fidelityTools) initialAppState [] "Transfer all my money").executed
      = ["getAccountList"]
    ∧ (processUserPromptWithLLM stubOracle stubParse stubStringify stubToFixed
        (provideContext [] fidelityTools) initialAppState [] "Transfer all my money").requests.length
      = 2 :=
  ⟨rfl, rfl, rfl⟩

/-- C2 (amended): a model stub that always returns a tool-call decision with
parsable arguments and a nonempty call id cannot make the orchestrator loop:
processing one user submission performs exactly two model requests and at
most one tool execution, then terminates by returning the follow-up
tool-call decision as the final response (it is never executed, and no
`Errored` state is involved). -/
theorem orchestrator_always_toolcall_bounded (oracle : OAIRequest → OAIMessage)
    (parseJson : String → Option ToolArgs) (stringifyResult : ToolResult → String)
    (toFixed2 : ℚ → String) (registry : List (String × MTool)) (st : AppState)
    (history : List Turn) (prompt : String)
    (hOracle : ∀ req, (oracle req).toolCalls ≠ [])
    (hParse : ∀ s, (parseJson s).isSome)
    (hIds : ∀ req, ∀ c ∈ (oracle req).toolCalls, c.id ≠ "") :
    (processUserPromptWithLLM oracle parseJson stringifyResult toFixed2 registry st
        history prompt).requests.length = 2
    ∧ (processUserPromptWithLLM oracle parseJson stringifyResult toFixed2 registry st
        history prompt).executed.length ≤ 1
    ∧ ∃ f a c, (processUserPromptWithLLM oracle parseJson stringifyResult toFixed2 registry st
        history prompt).response = AgentResult.raw (LLMResponse.functionCall f a c) := by
  obtain ⟨f1, a1, c1, hresp1, hc1⟩ := callOpenAI_always_functionCall oracle parseJson
    hOracle hParse hIds registry (history ++ [Turn.user prompt])
  have hbeq : (c1 == "") = false := beq_eq_false_iff_ne.mpr hc1
  simp only [processUserPromptWithLLM, hresp1, handleFunctionResult, hbeq,
    Bool.false_eq_true, if_false]
  obtain ⟨f2, a2, c2, hresp2, hc2⟩ := callOpenAI_always_functionCall oracle parseJson
    hOracle hParse hIds []
    ((callOpenAI oracle parseJson registry (history ++ [Turn.user prompt])).history
      ++ [Turn.toolTurn c1
        (stringifyResult (invokeTool registry f1 a1 st).result)])
  refine ⟨rfl, invokeTool_executed_le_one registry f1 a1 st, f2, a2, c2, ?_⟩
  rw [hresp2]

/-- C2 witness: the amended claim at the concrete always-tool-call stub. -/
theorem orchestrator_always_toolcall_bounded_witness :
    (processUserPromptWithLLM stubOracle stubParse stubStringify stubToFixed
        (provideContext [] fidelityTools) initialAppState [] "loop forever please").requests.length
      = 2
    ∧ (processUserPromptWithLLM stubOracle stubParse stubStringify stubToFixed
        (provideContext [] fidelityTools) initialAppState [] "loop forever please").executed.length
      ≤ 1
    ∧ ∃ f a c, (processUserPromptWithLLM stubOracle stubParse stubStringify stubToFixed
        (provideContext [] fidelityTools) initialAppState [] "loop forever please").response
      = AgentResult.raw (LLMResponse.functionCall f a c) :=
  orchestrator_always_toolcall_bounded stubOracle stubParse stubStringify stubToFixed
    (provideContext [] fidelityTools) initialAppState [] "loop forever please"
    (fun _ => by simp [stubOracle, stubMessage])
    (fun _ => rfl)
    (fun _ c hc => by
      simp only [stubOracle, stubMessage, List.mem_singleton] at hc
      subst hc
      decide)

/-- C10: per user submission at most one executor ever runs: the follow-up
request built by `handleFunctionResult` is constructed with an empty tool
map, so every request after the first carries no tool declarations
(`tools` is `undefined`), and the follow-up decision — even a tool-call
decision — is returned as the final response with no further execution. -/
theorem orchestrator_at_most_one_execution (oracle : OAIRequest → OAIMessage)
    (parseJson : String → Option ToolArgs) (stringifyResult : ToolResult → String)
    (toFixed2 : ℚ → String) (registry : List (String × MTool)) (st : AppState)
    (history : List Turn) (prompt : String) :
    (processUserPromptWithLLM oracle parseJson stringifyResult toFixed2 registry st
        history prompt).executed.length ≤ 1
    ∧ (processUserPromptWithLLM oracle parseJson stringifyResult toFixed2 registry st
        history prompt).requests.length ≤ 2
    ∧ ∀ r ∈ (processUserPromptWithLLM oracle parseJson stringifyResult toFixed2 registry st
        history prompt).requests.drop 1, r.tools = none := by
  simp only [processUserPromptWithLLM, handleFunctionResult]
  generalize (callOpenAI oracle parseJson registry (history ++ [Turn.user prompt])).response
    = resp
  rcases resp with ⟨f1, a1, c1⟩ | m | m
  · dsimp only
    generalize (c1 == "") = isEmptyId
    rcases isEmptyId with _ | _
    · refine ⟨invokeTool_executed_le_one registry f1 a1 st, ?_, ?_⟩
      · exact Nat.le_refl 2
      · intro r hr
        simp only [List.drop, List.mem_singleton] at hr
        subst hr
        rfl
    · refine ⟨invokeTool_executed_le_one registry f1 a1 st, ?_, ?_⟩
      · exact Nat.le_succ 1
      · intro r hr
        simp at hr
  · exact ⟨Nat.zero_le 1, Nat.le_succ 1, fun r hr => by simp at hr⟩
  · exact ⟨Nat.zero_le 1, Nat.le_succ 1, fun r hr => by simp at hr⟩

/-- C10 witness: the single-round-trip property at a concrete run. -/
theorem orchestrator_at_most_one_execution_witness :
    (processUserPromptWithLLM stubOracle stubParse stubStringify stubToFixed
        (provideContext [] fidelityTools) initialAppState [] "check balances").executed.length
      ≤ 1
    ∧ (processUserPromptWithLLM stubOracle stubParse stubStringify stubToFixed
        (provideContext [] fidelityTools) initialAppState [] "check balances").requests.length
      ≤ 2
    ∧ ∀ r ∈ (processUserPromptWithLLM stubOracle stubParse stubStringify stubToFixed
        (provideContext [] fidelityTools) initialAppState [] "check balances").requests.drop 1,
        r.tools = none :=
  orchestrator_at_most_one_execution stubOracle stubParse stubStringify stubToFixed
    (provideContext [] fidelityTools) initialAppState [] "check balances"

end WebMCP
